import Mathlib

/-!
A shallow embedding of the data-normalization pipeline of the `weather-coord`
command-line tool (`src/weather_cli/`), together with theorems checking the
natural-language specification against it.

Conventions of the embedding:
* a pandas `DataFrame` is a column-major association list `Table α`:
  a list of pairs (column name, list of cell values);
* cell values are Python floats; they are modelled as real numbers.  Because
  the pipeline's control flow never branches on a cell value, the pipeline is
  written generically over the cell type `α`, with the four arithmetic
  operations it applies bundled in `PipelineOps`; `realOps` is the
  real-number instantiation matching the source;
* fallible Python code (raising `SystemExit`, `KeyError`, `IndexError`) is
  modelled with `Except LoadError`;
* Python strings are processed as `List Char` where character-level scanning
  is required.
-/

/-- Character used for a single quote, built numerically so no quote literal
appears in the source text. -/
def quoteChar : Char := Char.ofNat 39

/-- Character used for a double quote. -/
def dquoteChar : Char := Char.ofNat 34

/-- A pandas DataFrame, column-major: list of (column name, cell values).
All columns of a well-formed frame have the same length. -/
abbrev Table (α : Type) : Type := List (String × List α)

/-- The list of column names of a table, in order. -/
def colNames {α : Type} (t : Table α) : List String := t.map Prod.fst

/-- Look up a column by name (first match). -/
def getCol? {α : Type} (t : Table α) (n : String) : Option (List α) :=
  (t.find? (fun c => c.1 == n)).map Prod.snd

/-- `n in df.columns` in pandas. -/
def hasCol {α : Type} (t : Table α) (n : String) : Bool := (getCol? t n).isSome

/-- Column lookup with default `[]` (used only where presence is known). -/
def getColD {α : Type} (t : Table α) (n : String) : List α := (getCol? t n).getD []

/-- The pandas index length of a frame: the common length of its columns. -/
def nrows {α : Type} (t : Table α) : Nat :=
  match t with
  | [] => 0
  | c :: _ => c.2.length

/-- Well-formedness: every column has the index length. -/
def TableWF {α : Type} (t : Table α) : Prop := ∀ c ∈ t, c.2.length = nrows t

instance {α : Type} (t : Table α) : Decidable (TableWF t) :=
  decidable_of_iff (∀ c ∈ t, c.2.length = nrows t) Iff.rfl

/-- `df[n] = vs` in pandas: replace the column if present, else append it. -/
def setCol {α : Type} (t : Table α) (n : String) (vs : List α) : Table α :=
  if hasCol t n then t.map (fun c => if c.1 == n then (n, vs) else c)
  else t ++ [(n, vs)]

/-- The error outcomes of the loading pipeline in `process_data.py`. -/
inductive LoadError : Type
  /-- A pandas `KeyError` on missing column lookups (`raw_df[col]`, and the
  named-missing-column error raised by `add_rh_from_magnus`). -/
  | keyError : List String → LoadError
  /-- A pandas `IndexError` from `.iloc[0]` on an empty column. -/
  | indexError : LoadError
  /-- `SystemExit("Missing variables in dataset: ...")` naming the canonical
  columns that have no raw source column. -/
  | missingVariables : List String → LoadError
  /-- `SystemExit` for an empty result table, naming the location. -/
  | emptyDataset : String → LoadError
  /-- `SystemExit("CSV is missing required time column ...")` from
  `_clean_frames`. -/
  | missingTimeColumn : LoadError
  deriving DecidableEq, Repr

/-- `raw_df[n]` in pandas: the column values, or a `KeyError` naming `n`. -/
def keyGet {α : Type} (t : Table α) (n : String) : Except LoadError (List α) :=
  match getCol? t n with
  | some vs => .ok vs
  | none => .error (.keyError [n])

/-- `series.iloc[0]`: first value, or an `IndexError` when empty. -/
def iloc0 {α : Type} (vs : List α) : Except LoadError α :=
  match vs with
  | [] => .error .indexError
  | x :: _ => .ok x

/-- `CANONICAL_COLUMNS` of `process_data.py`: fixed mapping from canonical
column name to the accepted raw source column names, in dictionary order. -/
def CANONICAL_COLUMNS : List (String × List String) :=
  [("temperature_c", ["t2m"]),
   ("dewpoint_c", ["d2m"]),
   ("total_precipitation", ["tp"]),
   ("surface_solar_radiation_downwards", ["ssrd"]),
   ("surface_thermal_radiation_downwards", ["strd"]),
   ("snow_cover", ["snowc"]),
   ("windspeed_u_ms", ["u10"]),
   ("windspeed_v_ms", ["v10"])]

/-- The four cell-level arithmetic operations used by the loading pipeline.
The pipeline's control flow never branches on a cell value, so it is defined
generically over these; `realOps` below is the instantiation that matches
the source. -/
structure PipelineOps (α : Type) where
  /-- `series - 273.15`: Kelvin to Celsius. -/
  kToC : α → α
  /-- The unclamped Magnus relative humidity from dewpoint and temperature,
  both in Celsius (`add_rh_from_magnus`). -/
  magnus : α → α → α
  /-- `series.clip(lower=0.0, upper=100.0)`, pointwise. -/
  clip : α → α
  /-- `np.hypot`, pointwise over two columns. -/
  hyp : α → α → α

/-- Magnus constant `a = 17.27` from `add_rh_from_magnus`. -/
noncomputable def magnusA : ℝ := 17.27

/-- Magnus constant `b = 237.7` from `add_rh_from_magnus`. -/
noncomputable def magnusB : ℝ := 237.7

/-- The unclamped Magnus relative humidity (percent) computed by
`add_rh_from_magnus` for dewpoint and temperature in Celsius:
`100 * np.exp((a * td_c) / (b + td_c) - (a * t_c) / (b + t_c))`. -/
noncomputable def magnusRaw (tdC tC : ℝ) : ℝ :=
  100 * Real.exp ((magnusA * tdC) / (magnusB + tdC) - (magnusA * tC) / (magnusB + tC))

/-- `series.clip(lower=0.0, upper=100.0)` applied pointwise. -/
noncomputable def clip0100 (x : ℝ) : ℝ := min 100 (max 0 x)

/-- `np.hypot`: the Euclidean norm of a pair of components. -/
noncomputable def hypot (u v : ℝ) : ℝ := Real.sqrt (u ^ 2 + v ^ 2)

/-- The real-number cell operations of the source pipeline. -/
noncomputable def realOps : PipelineOps ℝ :=
  { kToC := fun x => x - 273.15
    magnus := magnusRaw
    clip := clip0100
    hyp := hypot }

/-- The Kelvin-to-Celsius conversion applied to the two temperature-like
canonical columns inside the mapping loop of `load_location_timeseries`. -/
def kelvinToCelsius {α : Type} (ops : PipelineOps α) (canonical : String)
    (vs : List α) : List α :=
  if canonical == "temperature_c" || canonical == "dewpoint_c" then
    vs.map ops.kToC
  else vs

/-- One iteration of the canonical-mapping loop of `load_location_timeseries`:
the first raw candidate present wins; a canonical with no candidate present is
appended to the missing list. -/
def mapCanonicalStep {α : Type} (ops : PipelineOps α) (raw : Table α)
    (acc : List String × Table α) (entry : String × List String) :
    List String × Table α :=
  match entry.2.find? (fun c => hasCol raw c) with
  | none => (acc.1 ++ [entry.1], acc.2)
  | some c => (acc.1, acc.2 ++ [(entry.1, kelvinToCelsius ops entry.1 (getColD raw c))])

/-- The canonical-mapping loop of `load_location_timeseries`, returning the
missing-variable list and the dataframe extended with the mapped columns. -/
def mapCanonical {α : Type} (ops : PipelineOps α) (raw : Table α) (df0 : Table α) :
    List String × Table α :=
  CANONICAL_COLUMNS.foldl (mapCanonicalStep ops raw) ([], df0)

/-- `add_rh_from_magnus(df, d2m_col, t2m_col, out_col)`: requires both source
columns (else a `KeyError` naming the missing ones), reads dewpoint in Kelvin
(converted to Celsius), temperature already in Celsius, and writes the clipped
Magnus humidity to `out_col`. -/
def add_rh_from_magnus {α : Type} (ops : PipelineOps α) (df : Table α)
    (d2mCol t2mCol outCol : String) : Except LoadError (Table α) :=
  if hasCol df d2mCol && hasCol df t2mCol then
    let tdC := (getColD df d2mCol).map ops.kToC
    let tC := getColD df t2mCol
    let rh := List.zipWith ops.magnus tdC tC
    .ok (setCol df outCol (rh.map ops.clip))
  else
    .error (.keyError
      ((if hasCol df d2mCol then [] else [d2mCol]) ++
       (if hasCol df t2mCol then [] else [t2mCol])))

/-- `_add_relative_humidity(df, raw_df)`: assigns `t2m_c = raw_df["t2m"] - 273.15`
(a `KeyError` when `t2m` is absent), runs `add_rh_from_magnus` on the raw frame,
and copies the `rh_perc` values onto `df`. -/
def addRelativeHumidity {α : Type} (ops : PipelineOps α) (df raw : Table α) :
    Except LoadError (Table α) :=
  match keyGet raw "t2m" with
  | .error e => .error e
  | .ok t2m =>
    match add_rh_from_magnus ops (setCol raw "t2m_c" (t2m.map ops.kToC))
        "d2m" "t2m_c" "rh_perc" with
    | .error e => .error e
    | .ok rhDf => .ok (setCol df "rh_perc" (getColD rhDf "rh_perc"))

/-- `_add_windspeed(df, raw_df)`: reads `u10` and `v10` from the raw frame
(`KeyError` when absent) and writes their pointwise `np.hypot`. -/
def addWindspeed {α : Type} (ops : PipelineOps α) (df raw : Table α) :
    Except LoadError (Table α) :=
  match keyGet raw "u10" with
  | .error e => .error e
  | .ok u =>
    match keyGet raw "v10" with
    | .error e => .error e
    | .ok v => .ok (setCol df "windspeed_ms" (List.zipWith ops.hyp u v))

/-- `df.empty` in pandas: some axis has length zero, i.e. every column of the
column list is empty (in particular a frame with no columns is empty). -/
def dfEmpty {α : Type} (t : Table α) : Bool := t.all (fun c => c.2.isEmpty)

/-- The latitude half of the coordinate-preservation step at the top of
`load_location_timeseries`: starting from an empty frame over the raw index,
insert the broadcast first value of the latitude column when present
(`raw_df["latitude"].iloc[0]`, an `IndexError` on an empty column). -/
def latStep {α : Type} (raw : Table α) : Except LoadError (Table α) :=
  if hasCol raw "latitude" then
    match iloc0 (getColD raw "latitude") with
    | .error e => .error e
    | .ok v => .ok [("latitude", List.replicate (nrows raw) v)]
  else .ok []

/-- The coordinate-preservation step of `load_location_timeseries`: the
latitude step, then the same for longitude at the next position. -/
def latlonPart {α : Type} (raw : Table α) : Except LoadError (Table α) :=
  match latStep raw with
  | .error e => .error e
  | .ok df1 =>
    if hasCol raw "longitude" then
      match iloc0 (getColD raw "longitude") with
      | .error e => .error e
      | .ok v => .ok (df1 ++ [("longitude", List.replicate (nrows raw) v)])
    else .ok df1

/-- `load_location_timeseries` of `process_data.py`, starting from the merged
raw table produced by `_read_csv_archive`: preserve one latitude/longitude,
map the canonical columns (collecting missing ones), add the derived metrics,
then fail on a non-empty missing list, then fail on an empty result. -/
def load_location_timeseries {α : Type} (ops : PipelineOps α) (name : String)
    (raw : Table α) : Except LoadError (Table α) :=
  match latlonPart raw with
  | .error e => .error e
  | .ok df2 =>
    match addRelativeHumidity ops (mapCanonical ops raw df2).2 raw with
    | .error e => .error e
    | .ok df3 =>
      match addWindspeed ops df3 raw with
      | .error e => .error e
      | .ok df4 =>
        if (mapCanonical ops raw df2).1 ≠ [] then
          .error (.missingVariables (mapCanonical ops raw df2).1)
        else if dfEmpty df4 then .error (.emptyDataset name)
        else .ok df4

/-- The error produced by a load, if any (comparison helper with decidable
equality, since tables hold real numbers). -/
def loadErr {α : Type} (ops : PipelineOps α) (name : String) (raw : Table α) :
    Option LoadError :=
  match load_location_timeseries ops name raw with
  | .error e => some e
  | .ok _ => none

/-- Whether a load succeeds. -/
def loadOk {α : Type} (ops : PipelineOps α) (name : String) (raw : Table α) : Bool :=
  (load_location_timeseries ops name raw).toBool

/-- The canonical columns that have no accepted raw source column in `raw`:
what the specification says the missing-variable error must name. -/
def missingOf {α : Type} (raw : Table α) : List String :=
  (CANONICAL_COLUMNS.filter (fun p => p.2.all (fun c => !hasCol raw c))).map Prod.fst

/-- Python `str.strip()`: drop leading and trailing whitespace. -/
def pyStrip (l : List Char) : List Char :=
  ((l.dropWhile Char.isWhitespace).reverse.dropWhile Char.isWhitespace).reverse

/-- Helper for Python `str.split()` with no separator: accumulate the current
word (reversed) and cut at whitespace runs, discarding empty pieces. -/
def pySplitAux : List Char → List Char → List (List Char)
  | [], acc => if acc.isEmpty then [] else [acc.reverse]
  | c :: rest, acc =>
    if c.isWhitespace then
      if acc.isEmpty then pySplitAux rest [] else acc.reverse :: pySplitAux rest []
    else pySplitAux rest (c :: acc)

/-- Python `str.split()` with no separator: whitespace-separated words. -/
def pySplit (l : List Char) : List (List Char) := pySplitAux l []

/-- Python `"-".join(words)`. -/
def joinDash : List (List Char) → List Char
  | [] => []
  | [w] => w
  | w :: ws => w ++ '-' :: joinDash ws

/-- The joined dash-separated words of `slugify`:
`"-".join(value.strip().lower().split())`. -/
def slugifyCore (value : String) : List Char :=
  joinDash (pySplit ((pyStrip value.toList).map Char.toLower))

/-- `slugify` of `download.py`:
`"-".join(value.strip().lower().split()) or "dataset"` (a Python `or` falls
back when the joined string is empty, hence falsy). -/
def slugify (value : String) : String :=
  if (slugifyCore value).isEmpty then "dataset" else String.mk (slugifyCore value)

/-- `validate_coordinates` of `process_data.py`.  The CLI passes numeric
coordinates (modelled as rationals); the `_coerce_float` string-coercion step
is not modelled. -/
def validate_coordinates (lat lon : ℚ) : Except String Unit :=
  if ¬(-90 ≤ lat ∧ lat ≤ 90) then .error "Latitude must be between -90 and 90"
  else if ¬(-180 ≤ lon ∧ lon ≤ 360) then .error "Longitude must be between -180 and 360"
  else .ok ()

/-- Decimal digit character. -/
def digitChar (n : Nat) : Char := Char.ofNat (48 + n)

/-- Decimal digits of a number, most significant first (structural recursion
on a fuel so that concrete values reduce in the kernel). -/
def natDigitsAux : Nat → Nat → List Char → List Char
  | 0, _, acc => acc
  | _, 0, acc => acc
  | Nat.succ fuel, n, acc => natDigitsAux fuel (n / 10) (digitChar (n % 10) :: acc)

/-- Decimal rendering of a natural number. -/
def natToStr (n : Nat) : String :=
  if n == 0 then "0" else String.mk (natDigitsAux (n + 1) n [])

/-- Left-pad a fractional part to four digits. -/
def pad4 (n : Nat) : String :=
  if n < 10 then "000" ++ natToStr n
  else if n < 100 then "00" ++ natToStr n
  else if n < 1000 then "0" ++ natToStr n
  else natToStr n

/-- Python f-string `:.4f` fixed-point formatting, modelled on rationals with
round-half-up.  (The source formats binary floats; no claim depends on the
rounding rule, only on the path being a fixed function of name and
coordinates.) -/
def fmt4 (q : ℚ) : String :=
  let scaled : Int := Int.ediv (q.num * 20000 + (q.den : Int)) (2 * (q.den : Int))
  let sgn := if scaled < 0 then "-" else ""
  let a := scaled.natAbs
  sgn ++ natToStr (a / 10000) ++ "." ++ pad4 (a % 10000)

/-- `Weather._dataset_path`: basename of the target archive file,
`slug_lat_lon.zip` with coordinates formatted to four decimal places. -/
def datasetFileName (name : String) (lat lon : ℚ) : String :=
  slugify name ++ "_" ++ fmt4 lat ++ "_" ++ fmt4 lon ++ ".zip"

/-- Outcome of a `download` CLI invocation: the resulting contents of the data
directory, whether the external retrieval client was invoked, and the messages
printed. -/
structure DownloadOutcome where
  files : List String
  clientCalled : Bool
  messages : List String
  deriving DecidableEq, Repr

/-- `Weather.download` of `cli.py`: validate the coordinates, compute the
dataset path, skip when the target file already exists, otherwise invoke the
retrieval client (`download_timeseries`, modelled as writing the target file)
and report completion. -/
def downloadCommand (files : List String) (name : String) (lat lon : ℚ) :
    Except String DownloadOutcome :=
  match validate_coordinates lat lon with
  | .error e => .error e
  | .ok _ =>
    let p := datasetFileName name lat lon
    if files.contains p then
      .ok ⟨files, false, ["Skipping " ++ name ++ ": already present at " ++ p]⟩
    else
      .ok ⟨files ++ [p], true, ["Download complete."]⟩

/-- One row of the `locations` cache table. -/
structure LocationRow where
  filename : String
  name : String
  country : String
  latitude : ℚ
  longitude : ℚ
  deriving DecidableEq, Repr

/-- One row of the denormalized `weather` cache table. -/
structure WeatherRow where
  filename : String
  name : String
  country : String
  timestamp : String
  latitude : ℚ
  longitude : ℚ
  deriving DecidableEq, Repr

/-- The state `delete_location` acts on: both cache tables, the basenames of
the files in the data directory, and whether the cache database file exists. -/
structure CacheState where
  locations : List LocationRow
  weather : List WeatherRow
  files : List String
  dbExists : Bool
  deriving DecidableEq, Repr

/-- Modelled from the spec: `_resolve_cache_key` is imported by `delete.py`
from `process_data.py`, but its definition is not among the given sources.
The spec says the delete operation "resolves a location by display name
(falling back to slug-equivalence) to its filename key".  Modelled as: the
filename of the first cached location row whose display name equals the
requested name, else of the first row whose filename equals the slug of the
requested name, else nothing (also when no cache database exists). -/
def resolve_cache_key (st : CacheState) (name : String) : Option String :=
  if !st.dbExists then none
  else
    match st.locations.find? (fun r => r.name == name) with
    | some r => some r.filename
    | none =>
      match st.locations.find? (fun r => r.filename == slugify name) with
      | some r => some r.filename
      | none => none

/-- Whether basename `f` matches one of the deletion glob patterns for cache
key `key`: `key.zip`, `key.csv`, `key_*.zip`, `key_*.csv` (a glob `*` matches
any, possibly empty, run of characters, so prefix and suffix must not
overlap). -/
def matchesDeletePattern (key f : String) : Bool :=
  f == key ++ ".zip" || f == key ++ ".csv" ||
  ((key ++ "_").toList.isPrefixOf f.toList &&
    (".zip".toList.isSuffixOf f.toList || ".csv".toList.isSuffixOf f.toList) &&
    key.length + 5 ≤ f.length)

/-- Outcome of `delete_location`: the new state, the row/file counts it
reports, and whether it printed the "not found" message. -/
structure DeleteOutcome where
  state : CacheState
  weatherCount : Nat
  locationCount : Nat
  deletedFiles : Nat
  notFound : Bool
  deriving DecidableEq, Repr

/-- The filename key `delete_location` acts on: the resolved cache key,
falling back to the slug of the requested name. -/
def deleteKey (st : CacheState) (name : String) : String :=
  (resolve_cache_key st name).getD (slugify name)

/-- The number of weather rows `delete_location` removes. -/
def deleteWeatherCount (st : CacheState) (name : String) : Nat :=
  if st.dbExists then
    (st.weather.filter (fun r => r.filename == deleteKey st name)).length
  else 0

/-- The number of location rows `delete_location` removes. -/
def deleteLocationCount (st : CacheState) (name : String) : Nat :=
  if st.dbExists then
    (st.locations.filter (fun r => r.filename == deleteKey st name)).length
  else 0

/-- The files `delete_location` removes (the glob matches). -/
def deleteRemovedFiles (st : CacheState) (name : String) : List String :=
  st.files.filter (fun f => matchesDeletePattern (deleteKey st name) f)

/-- `delete_location` of `delete.py`: resolve the cache key (falling back to
the slug of the requested name), delete rows with that filename from both
tables when the cache database exists, delete the files matching the glob
patterns, and report "not found" exactly when no row and no file matched.
The operation raises no error. -/
def delete_location (st : CacheState) (name : String) : DeleteOutcome :=
  { state :=
      { locations :=
          if st.dbExists then
            st.locations.filter (fun r => !(r.filename == deleteKey st name))
          else st.locations
        weather :=
          if st.dbExists then
            st.weather.filter (fun r => !(r.filename == deleteKey st name))
          else st.weather
        files := st.files.filter (fun f => !matchesDeletePattern (deleteKey st name) f)
        dbExists := st.dbExists }
    weatherCount := deleteWeatherCount st name
    locationCount := deleteLocationCount st name
    deletedFiles := (deleteRemovedFiles st name).length
    notFound := (deleteRemovedFiles st name).length == 0 &&
      deleteWeatherCount st name == 0 && deleteLocationCount st name == 0 }

/-- The fixed priority list of accepted time columns in `_clean_frames`. -/
def timeCandidates : List String := ["timestamp", "valid_time", "time"]

/-- The time-column selection loop of `_clean_frames`: iterate the priority
list and stop at the first candidate present in the frame columns. -/
def findTimeCol (header : List String) : Option String :=
  timeCandidates.find? (fun c => header.contains c)

/-- Spec wording of the time-column rule, for comparison with `findTimeCol`:
"the first match in a fixed priority list (timestamp, valid_time, time)". -/
def specTimeCol (header : List String) : Option String :=
  if header.contains "timestamp" then some "timestamp"
  else if header.contains "valid_time" then some "valid_time"
  else if header.contains "time" then some "time"
  else none

/-- The source message of the missing-time-column failure:
`CSV is missing required time column ('timestamp' or 'valid_time' or 'time').` -/
def timeColumnMessage : String :=
  "CSV is missing required time column (" ++ String.mk [quoteChar] ++ "timestamp" ++
  String.mk [quoteChar] ++ " or " ++ String.mk [quoteChar] ++ "valid_time" ++
  String.mk [quoteChar] ++ " or " ++ String.mk [quoteChar] ++ "time" ++
  String.mk [quoteChar] ++ ")."

/-- Keep the entries of `vs` whose position is marked `true` in `mask`
(row filtering of a column by the parsed-timestamp mask). -/
def applyMask {γ : Type} (mask : List Bool) (vs : List γ) : List γ :=
  (List.zip mask vs).filterMap (fun p => if p.1 then some p.2 else none)

/-- `series.dropna().iloc[0] if not empty else None`. -/
def firstNonNull {β : Type} (vs : List (Option β)) : Option β :=
  (vs.filterMap id).head?

/-- Accumulator of the `_clean_frames` loop: the cleaned frames and the first
non-null latitude/longitude values seen so far.  CSV frames carry `Option β`
cells (`none` is a NaN). -/
structure CleanAcc (β : Type) where
  cleaned : List (Table (Option β))
  latValue : Option β
  lonValue : Option β

/-- One iteration of the `_clean_frames` loop, parameterized by the permissive
timestamp parser (`pd.to_datetime(..., errors="coerce")`, `none` for an
unparsable value): select the time column (failing when none of the candidates
is present), record the first non-null latitude/longitude, rename the time
column to `timestamp` and replace it by its parsed values, drop the rows whose
timestamp did not parse, drop the latitude/longitude columns, and index the
frame by the timestamp column (kept in first position here). -/
def cleanFrameStep {β : Type} (parseTs : β → Option β) (acc : CleanAcc β)
    (f : Table (Option β)) : Except LoadError (CleanAcc β) :=
  match findTimeCol (colNames f) with
  | none => .error .missingTimeColumn
  | some tc =>
    let latCol := ["latitude", "lat"].find? (fun c => hasCol f c)
    let lonCol := ["longitude", "lon"].find? (fun c => hasCol f c)
    let latValue :=
      match latCol, acc.latValue with
      | some lc, none => firstNonNull (getColD f lc)
      | _, v => v
    let lonValue :=
      match lonCol, acc.lonValue with
      | some lc, none => firstNonNull (getColD f lc)
      | _, v => v
    let parsed : List (Option β) := (getColD f tc).map (fun c => c.bind parseTs)
    let mask := parsed.map Option.isSome
    let kept : List (Option β) := (parsed.filterMap id).map some
    let rest := (f.filter (fun c =>
        !(c.1 == tc) && !(latCol == some c.1) && !(lonCol == some c.1))).map
      (fun c => (c.1, applyMask mask c.2))
    .ok { cleaned := acc.cleaned ++ [("timestamp", kept) :: rest]
          latValue := latValue
          lonValue := lonValue }

/-- The per-frame part of `_clean_frames` (the final `pd.concat` column-union
merge, timestamp sort and latitude/longitude insertion operate on the
accumulator and are not needed by any claim). -/
def cleanFramesCore {β : Type} (parseTs : β → Option β)
    (frames : List (Table (Option β))) : Except LoadError (CleanAcc β) :=
  frames.foldlM (cleanFrameStep parseTs) ⟨[], none, none⟩

/-- Python regex `\w` (ASCII model): letters, digits, underscore. -/
def isWordChar (c : Char) : Bool := c.isAlphanum || c == '_'

/-- Lowercase a character list (Python `str.lower`, ASCII model). -/
def lowerStr (l : List Char) : List Char := l.map Char.toLower

/-- `field_map` of `_parse_filter` in `list.py`, in dictionary order. -/
def field_map : List (String × String) :=
  [("name", "name"), ("country", "country"), ("lat", "latitude"),
   ("latitude", "latitude"), ("lon", "longitude"), ("longitude", "longitude")]

/-- Whether the character at offset `n` of `s` is a word character (used for
the trailing `\b` boundary of regex alternatives; the end of the text is a
boundary). -/
def wordCharAfter (s : List Char) (n : Nat) : Bool :=
  match s.drop n with
  | [] => false
  | c :: _ => isWordChar c

/-- Attempt to match the regex `(\w+)\s+contains\s+([\w"]+)` (IGNORECASE) at
the start of `s`.  Adjacent tokens of this pattern have disjoint character
classes, so greedy matching needs no backtracking.  On success, returns the
two capture groups and the remainder of the text after the match. -/
def matchContainsAt (s : List Char) : Option (List Char × List Char × List Char) :=
  let w := s.takeWhile isWordChar
  if w.isEmpty then none else
  let s1 := s.drop w.length
  let sp1 := s1.takeWhile Char.isWhitespace
  if sp1.isEmpty then none else
  let s2 := s1.drop sp1.length
  if lowerStr (s2.take 8) == "contains".toList then
    let s3 := s2.drop 8
    let sp2 := s3.takeWhile Char.isWhitespace
    if sp2.isEmpty then none else
    let s4 := s3.drop sp2.length
    let v := s4.takeWhile (fun c => isWordChar c || c == dquoteChar)
    if v.isEmpty then none else some (w, v, s4.drop v.length)
  else none

/-- The `replace_contains` callback of `_parse_filter`: lowercase the field,
reject it when unknown (`ValueError`), strip double quotes from the value, and
emit `field LIKE '%value%'`. -/
def replace_contains (w v : List Char) : Except String (List Char) :=
  let field := lowerStr w
  match field_map.find? (fun p => p.1.toList == field) with
  | none => .error ("Unknown field: " ++ String.mk field)
  | some p =>
    let value :=
      ((v.dropWhile (fun c => c == dquoteChar)).reverse.dropWhile
        (fun c => c == dquoteChar)).reverse
    .ok (p.2.toList ++ " LIKE ".toList ++
      (quoteChar :: '%' :: value ++ ['%', quoteChar]))

/-- `re.sub` for the contains pattern: scan left to right, replacing
non-overlapping matches; the callback may raise.  Structural recursion on a
fuel bounded by the text length (every step consumes at least one
character). -/
def reSubContainsGo : Nat → List Char → Except String (List Char)
  | _, [] => .ok []
  | 0, s => .ok s
  | Nat.succ fuel, c :: rest =>
    match matchContainsAt (c :: rest) with
    | some (w, v, after) =>
        match replace_contains w v with
        | .error e => .error e
        | .ok rep =>
          match reSubContainsGo fuel after with
          | .error e => .error e
          | .ok tail => .ok (rep ++ tail)
    | none =>
        match reSubContainsGo fuel rest with
        | .error e => .error e
        | .ok tail => .ok (c :: tail)

/-- `re.sub(r'(\w+)\s+contains\s+([\w"]+)', replace_contains, s, IGNORECASE)`. -/
def reSubContains (s : List Char) : Except String (List Char) :=
  reSubContainsGo s.length s

/-- The keys of `field_map`, the alternation
`(name|country|lat|latitude|lon|longitude)` in source order. -/
def fieldKeywords : List String :=
  ["name", "country", "lat", "latitude", "lon", "longitude"]

/-- Attempt to match `\b(name|country|lat|latitude|lon|longitude)\b`
(IGNORECASE) at the start of `s`, given whether the preceding character of the
original text was a word character (the leading `\b`).  Alternatives are tried
in order; one matches when its letters match case-insensitively and the
following character is not a word character. -/
def matchFieldAt (prevIsWord : Bool) (s : List Char) : Option (List Char × List Char) :=
  if prevIsWord then none
  else
    fieldKeywords.findSome? (fun kw =>
      if lowerStr (s.take kw.length) == kw.toList && !wordCharAfter s kw.length then
        some (s.take kw.length, s.drop kw.length)
      else none)

/-- The `replace_field` callback of `_parse_filter`: lowercase the matched
field and reject it when unknown.  (The alternation only ever matches known
fields, so the rejection branch is unreachable from `reSubFields`.) -/
def replace_field (w : List Char) : Except String (List Char) :=
  match field_map.find? (fun p => p.1.toList == lowerStr w) with
  | none => .error ("Unknown field: " ++ String.mk (lowerStr w))
  | some p => .ok p.2.toList

/-- `re.sub` for the field-name pattern.  After a match the scan resumes after
the matched keyword, whose last character is a word character, so the next
leading boundary is taken with `prevIsWord := true`. -/
def reSubFieldsGo : Nat → Bool → List Char → Except String (List Char)
  | _, _, [] => .ok []
  | 0, _, s => .ok s
  | Nat.succ fuel, prevIsWord, c :: rest =>
    match matchFieldAt prevIsWord (c :: rest) with
    | some (w, after) =>
        match replace_field w with
        | .error e => .error e
        | .ok rep =>
          match reSubFieldsGo fuel true after with
          | .error e => .error e
          | .ok tail => .ok (rep ++ tail)
    | none =>
        match reSubFieldsGo fuel (isWordChar c) rest with
        | .error e => .error e
        | .ok tail => .ok (c :: tail)

/-- `re.sub(r'\b(name|country|lat|latitude|lon|longitude)\b', replace_field,
s, IGNORECASE)`. -/
def reSubFields (s : List Char) : Except String (List Char) :=
  reSubFieldsGo s.length false s

/-- Attempt to match a single keyword with `\b` boundaries (IGNORECASE) at the
start of `s` (`\band\b`, `\bor\b`); returns the remainder after the match. -/
def matchKeywordAt (kw : List Char) (prevIsWord : Bool) (s : List Char) :
    Option (List Char) :=
  if prevIsWord then none
  else if lowerStr (s.take kw.length) == kw && !wordCharAfter s kw.length then
    some (s.drop kw.length)
  else none

/-- `re.sub` replacing a boundary-delimited keyword by a fixed text
(`and -> AND`, `or -> OR`). -/
def reSubKeywordGo (kw rep : List Char) : Nat → Bool → List Char → List Char
  | _, _, [] => []
  | 0, _, s => s
  | Nat.succ fuel, prevIsWord, c :: rest =>
    match matchKeywordAt kw prevIsWord (c :: rest) with
    | some after => rep ++ reSubKeywordGo kw rep fuel true after
    | none => c :: reSubKeywordGo kw rep fuel (isWordChar c) rest

/-- `re.sub(r'\b<kw>\b', rep, s, IGNORECASE)`. -/
def reSubKeyword (kw rep : List Char) (s : List Char) : List Char :=
  reSubKeywordGo kw rep s.length false s

/-- The operator alternation `(=|!=|<>)`, tried in source order. -/
def opAt (s : List Char) : Option (List Char) :=
  if "=".toList.isPrefixOf s then some "=".toList
  else if "!=".toList.isPrefixOf s then some "!=".toList
  else if "<>".toList.isPrefixOf s then some "<>".toList
  else none

/-- Remove the first occurrence of a character (Python
`str.replace(c, "", 1)`). -/
def removeFirst (c : Char) : List Char → List Char
  | [] => []
  | x :: xs => if x == c then xs else x :: removeFirst c xs

/-- The numeric-looking heuristic of `quote_string_values`:
`value.replace(".", "", 1).replace("-", "", 1).isdigit()`. -/
def looksNumeric (v : List Char) : Bool :=
  let v2 := removeFirst '-' (removeFirst '.' v)
  !v2.isEmpty && v2.all Char.isDigit

/-- Attempt to match `(\w+)\s*(=|!=|<>)\s*` followed by a non-empty run of
characters that are neither whitespace nor a single quote, at the start of
`s`.  Returns the three capture groups and the remainder. -/
def matchQuoteAt (s : List Char) :
    Option (List Char × List Char × List Char × List Char) :=
  let w := s.takeWhile isWordChar
  if w.isEmpty then none else
  let s1 := s.drop w.length
  let sp1 := s1.takeWhile Char.isWhitespace
  let s2 := s1.drop sp1.length
  match opAt s2 with
  | none => none
  | some op =>
    let s3 := s2.drop op.length
    let sp2 := s3.takeWhile Char.isWhitespace
    let s4 := s3.drop sp2.length
    let v := s4.takeWhile (fun c => !c.isWhitespace && !(c == quoteChar))
    if v.isEmpty then none else some (w, op, v, s4.drop v.length)

/-- The `quote_string_values` callback: auto-quote the value unless it looks
numeric or already starts with a single quote, normalizing the spacing
(`f"field op value"`). -/
def quote_string_values (w op v : List Char) : List Char :=
  let value :=
    if !looksNumeric v && !([quoteChar].isPrefixOf v) then
      quoteChar :: v ++ [quoteChar]
    else v
  w ++ ' ' :: op ++ ' ' :: value

/-- `re.sub` for the value-quoting pattern (no flags, no callback error). -/
def reSubQuoteGo : Nat → List Char → List Char
  | _, [] => []
  | 0, s => s
  | Nat.succ fuel, c :: rest =>
    match matchQuoteAt (c :: rest) with
    | some (w, op, v, after) => quote_string_values w op v ++ reSubQuoteGo fuel after
    | none => c :: reSubQuoteGo fuel rest

/-- `re.sub(r'(\w+)\s*(=|!=|<>)\s*([^\s\x27]+)', quote_string_values, s)`. -/
def reSubQuote (s : List Char) : List Char := reSubQuoteGo s.length s

/-- `_parse_filter` of `list.py`: the textual-substitution pipeline over the
characters of the filter expression; a raised `ValueError` is `Except.error`.
An empty or blank filter translates to the empty clause. -/
def parse_filter (s : List Char) : Except String (List Char) :=
  if (pyStrip s).isEmpty then .ok []
  else
    match reSubContains (pyStrip s) with
    | .error e => .error e
    | .ok n1 =>
      match reSubFields n1 with
      | .error e => .error e
      | .ok n2 =>
        let n3 := reSubKeyword "and".toList "AND".toList n2
        let n4 := reSubKeyword "or".toList "OR".toList n3
        .ok (reSubQuote n4)

/-- The fixed part of the `locations` query of `_list_cached_locations`
(selected columns elided). -/
def baseQuery : List Char :=
  "SELECT filename, name, country, latitude, longitude FROM locations".toList

/-- The query construction of `_list_cached_locations`: the filter is
translated first (a translation error aborts before anything is executed
against the store); a non-empty translated clause is appended verbatim as the
`WHERE` clause of the executed query. -/
def buildListQuery (filterStr : Option (List Char)) : Except String (List Char) :=
  match filterStr with
  | none => .ok (baseQuery ++ " ORDER BY country, name ASC".toList)
  | some fs =>
      match parse_filter fs with
      | .error e => .error e
      | .ok w =>
        .ok ((if w.isEmpty then baseQuery else baseQuery ++ " WHERE ".toList ++ w)
          ++ " ORDER BY country, name ASC".toList)

instance {ε α : Type} [DecidableEq ε] [DecidableEq α] : DecidableEq (Except ε α) :=
  fun x y =>
    match x, y with
    | .ok a, .ok b =>
      if h : a = b then .isTrue (congrArg Except.ok h)
      else .isFalse (fun hh => h (Except.ok.inj hh))
    | .error a, .error b =>
      if h : a = b then .isTrue (congrArg Except.error h)
      else .isFalse (fun hh => h (Except.error.inj hh))
    | .ok _, .error _ => .isFalse (fun hh => Except.noConfusion hh)
    | .error _, .ok _ => .isFalse (fun hh => Except.noConfusion hh)

/-- A one-row merged raw table carrying all nine raw short-code variables of
`VARIABLES` (including `sp`, which no canonical column maps) together with
latitude/longitude, with the values of the mock dataset used by the
repository's tests. -/
noncomputable def rawAllVars : Table ℝ :=
  [("latitude", [57.7]), ("longitude", [11.97]),
   ("t2m", [300.15]), ("d2m", [280.15]), ("tp", [0.1]),
   ("ssrd", [1.0]), ("strd", [2.0]), ("sp", [101325.0]),
   ("snowc", [0.0]), ("u10", [3.0]), ("v10", [4.0])]

/-- `rawAllVars` with the raw temperature column `t2m` and the precipitation
column `tp` removed: two canonical columns lack a source, one of them a
derived-metric source. -/
noncomputable def rawNoT2mTp : Table ℝ :=
  [("latitude", [57.7]), ("longitude", [11.97]),
   ("d2m", [280.15]),
   ("ssrd", [1.0]), ("strd", [2.0]),
   ("snowc", [0.0]), ("u10", [3.0]), ("v10", [4.0])]

/-- `rawAllVars` with only the precipitation column `tp` removed: exactly one
canonical column lacks a source, and all derived-metric sources are present. -/
noncomputable def rawNoTp : Table ℝ :=
  [("latitude", [57.7]), ("longitude", [11.97]),
   ("t2m", [300.15]), ("d2m", [280.15]),
   ("ssrd", [1.0]), ("strd", [2.0]),
   ("snowc", [0.0]), ("u10", [3.0]), ("v10", [4.0])]

/-- The expected column list of a successful load with every variable present. -/
def expectedLoadedCols : List String :=
  ["latitude", "longitude",
   "temperature_c", "dewpoint_c", "total_precipitation",
   "surface_solar_radiation_downwards", "surface_thermal_radiation_downwards",
   "snow_cover", "windspeed_u_ms", "windspeed_v_ms",
   "rh_perc", "windspeed_ms"]

/-- The cached state of the round-trip scenario from the repository's delete
tests: one location cached under filename key `gothenburg`, one weather row,
and two archive files on disk (plain slug and slug-with-suffix). -/
def cachedGothenburg : CacheState :=
  { locations := [{ filename := "gothenburg", name := "Gothenburg", country := "SE",
                    latitude := 58, longitude := 12 }]
    weather := [{ filename := "gothenburg", name := "Gothenburg", country := "SE",
                  timestamp := "2024-01-01T00:00:00", latitude := 58,
                  longitude := 12 }]
    files := ["gothenburg.zip", "gothenburg_57.7000_11.9000.zip"]
    dbExists := true }

/-- The Magnus relative-humidity rule exactly as the specification words it:
`RH = 100 * exp((a*Td)/(b+Td) - (a*T)/(b+T))` with `a = 17.27`, `b = 237.7`,
`Td` and `T` in Celsius (inputs here in Kelvin, converted by subtracting
273.15), clamped to [0, 100]. -/
noncomputable def specMagnusRhFromKelvin (d t : ℝ) : ℝ :=
  min 100 (max 0 (100 * Real.exp
    ((17.27 * (d - 273.15)) / (237.7 + (d - 273.15)) -
     (17.27 * (t - 273.15)) / (237.7 + (t - 273.15)))))

/-- The identity timestamp parser (every value parses), used to instantiate
the permissive-parser parameter of `cleanFramesCore` in witnesses. -/
def idParse : ℚ → Option ℚ := fun x => some x

/-- A CSV fragment with no time column among `timestamp`, `valid_time`,
`time`. -/
def frameNoTime : Table (Option ℚ) := [("t2m", [some 1])]

/-- A CSV fragment whose time column is `valid_time` (and that also has a
`time` column, exercising the priority order). -/
def frameValidTime : Table (Option ℚ) :=
  [("valid_time", [some 0]), ("time", [some 1]), ("t2m", [some 2])]

/-! ## Theorems -/

theorem pyStrip_eq_nil_of_all_ws {l : List Char} (h : ∀ c ∈ l, c.isWhitespace) :
    pyStrip l = [] := by
  unfold pyStrip
  have h1 : l.dropWhile Char.isWhitespace = [] := by
    rw [List.dropWhile_eq_nil_iff]
    exact fun c hc => h c hc
  simp [h1]

theorem pySplitAux_no_ws :
    ∀ (l acc : List Char), (∀ c ∈ acc, c.isWhitespace = false) →
      ∀ w ∈ pySplitAux l acc, ∀ c ∈ w, c.isWhitespace = false := by
  intro l
  induction l with
  | nil =>
    intro acc hacc w hw c hc
    simp only [pySplitAux] at hw
    split at hw
    · simp at hw
    · simp at hw
      subst hw
      exact hacc c (List.mem_reverse.mp hc)
  | cons x xs ih =>
    intro acc hacc w hw c hc
    simp only [pySplitAux] at hw
    split at hw
    · split at hw
      · exact ih [] (by simp) w hw c hc
      · rcases List.mem_cons.mp hw with hw | hw
        · subst hw
          exact hacc c (List.mem_reverse.mp hc)
        · exact ih [] (by simp) w hw c hc
    · next hx =>
      refine ih (x :: acc) ?_ w hw c hc
      intro d hd
      rcases List.mem_cons.mp hd with hd | hd
      · subst hd
        exact Bool.eq_false_iff.mpr hx
      · exact hacc d hd

theorem joinDash_chars :
    ∀ (ws : List (List Char)) (c : Char), c ∈ joinDash ws →
      c = '-' ∨ ∃ w ∈ ws, c ∈ w := by
  intro ws
  induction ws with
  | nil => intro c hc; simp [joinDash] at hc
  | cons w tail ih =>
    intro c hc
    cases tail with
    | nil =>
      right
      exact ⟨w, by simp, by simpa [joinDash] using hc⟩
    | cons w2 ws2 =>
      rw [show joinDash (w :: w2 :: ws2) = w ++ '-' :: joinDash (w2 :: ws2) from rfl] at hc
      rcases List.mem_append.mp hc with hc | hc
      · exact Or.inr ⟨w, by simp, hc⟩
      · rcases List.mem_cons.mp hc with hc | hc
        · exact Or.inl hc
        · rcases ih c hc with hc | ⟨w3, hw3, hcw3⟩
          · exact Or.inl hc
          · exact Or.inr ⟨w3, List.mem_cons_of_mem _ hw3, hcw3⟩

/-- C9: `slugify` never returns the empty string; an input consisting only of
whitespace yields the fallback slug `dataset`; and the output contains no
whitespace character (the lowercased words are joined by single dashes). -/
theorem slugify_nonempty_and_fallback (s : String) :
    slugify s ≠ "" ∧
    ((∀ c ∈ s.toList, c.isWhitespace) → slugify s = "dataset") ∧
    (∀ c ∈ (slugify s).toList, c.isWhitespace = false) := by
  refine ⟨?_, ?_, ?_⟩
  · unfold slugify
    split
    · decide
    · next h =>
      intro hcon
      have h2 : slugifyCore s = [] := by
        have := congrArg String.toList hcon
        simpa using this
      simp [h2] at h
  · intro hws
    have h0 : pyStrip s.toList = [] := pyStrip_eq_nil_of_all_ws hws
    unfold slugify slugifyCore
    rw [h0]
    decide
  · intro c hc
    unfold slugify at hc
    split at hc
    · exact (by decide : ∀ d ∈ "dataset".toList, d.isWhitespace = false) c hc
    · next h =>
      have hc2 : c ∈ slugifyCore s := by
        simpa [String.toList] using hc
      rcases joinDash_chars _ c hc2 with hc3 | ⟨w, hw, hcw⟩
      · subst hc3; decide
      · exact pySplitAux_no_ws _ [] (by simp) w hw c hcw

/-- Witness for C9 at the whitespace-only input `"   "`. -/
theorem slugify_witness :
    (∀ c ∈ "   ".toList, c.isWhitespace) ∧ slugify "   " = "dataset" :=
  ⟨by decide, (slugify_nonempty_and_fallback "   ").2.1 (by decide)⟩

/-- C10: when the target archive for the given name and coordinates is already
present in the data directory, the download command prints the skip message
and returns: the retrieval client is not invoked and the directory contents
are unchanged. -/
theorem download_skips_existing (files : List String) (name : String) (lat lon : ℚ)
    (hlat : -90 ≤ lat ∧ lat ≤ 90) (hlon : -180 ≤ lon ∧ lon ≤ 360)
    (hex : files.contains (datasetFileName name lat lon) = true) :
    downloadCommand files name lat lon =
      .ok ⟨files, false,
        ["Skipping " ++ name ++ ": already present at " ++ datasetFileName name lat lon]⟩ := by
  unfold downloadCommand validate_coordinates
  rw [if_neg (not_not_intro hlat), if_neg (not_not_intro hlon)]
  simp only [hex, if_true]

/-- Witness for C10: a directory already holding the target archive. -/
theorem download_skips_existing_witness :
    ((-90 : ℚ) ≤ 1 ∧ (1 : ℚ) ≤ 90) ∧
    ([datasetFileName "Gothenburg" 1 2].contains (datasetFileName "Gothenburg" 1 2) = true) ∧
    downloadCommand [datasetFileName "Gothenburg" 1 2] "Gothenburg" 1 2 =
      .ok ⟨[datasetFileName "Gothenburg" 1 2], false,
        ["Skipping " ++ "Gothenburg" ++ ": already present at " ++
          datasetFileName "Gothenburg" 1 2]⟩ :=
  ⟨by decide, by decide,
    download_skips_existing _ "Gothenburg" 1 2 (by decide) (by decide) (by decide)⟩

/-- C7: the derived wind-speed column is the pointwise `np.hypot` of the raw
`u10` and `v10` columns; `np.hypot` is the Euclidean norm of the component
pair; and components (3, 4) give exactly 5. -/
theorem windspeed_euclidean_norm :
    (∀ (df raw : Table ℝ) us vs, getCol? raw "u10" = some us →
        getCol? raw "v10" = some vs →
        addWindspeed realOps df raw =
          .ok (setCol df "windspeed_ms" (List.zipWith hypot us vs))) ∧
    (∀ u v : ℝ,
      hypot u v = ‖((WithLp.equiv 2 (Fin 2 → ℝ)).symm ![u, v] : EuclideanSpace ℝ (Fin 2))‖) ∧
    hypot 3 4 = 5 := by
  refine ⟨?_, ?_, ?_⟩
  · intro df raw us vs hu hv
    unfold addWindspeed keyGet
    rw [hu, hv]
    rfl
  · intro u v
    rw [EuclideanSpace.norm_eq]
    unfold hypot
    congr 1
    rw [Fin.sum_univ_two]
    simp [Real.norm_eq_abs, sq_abs]
  · unfold hypot
    rw [show (3 : ℝ) ^ 2 + 4 ^ 2 = 5 ^ 2 by norm_num]
    exact Real.sqrt_sq (by norm_num)

/-- Witness for C7 on the mock dataset table (components 3 and 4). -/
theorem windspeed_witness :
    getCol? rawAllVars "u10" = some [(3.0 : ℝ)] ∧
    getCol? rawAllVars "v10" = some [(4.0 : ℝ)] ∧
    addWindspeed realOps [] rawAllVars =
      .ok (setCol [] "windspeed_ms" (List.zipWith hypot [(3.0 : ℝ)] [(4.0 : ℝ)])) :=
  ⟨rfl, rfl, windspeed_euclidean_norm.1 [] rawAllVars _ _ rfl rfl⟩

theorem hasCol_eq_find_isSome {α : Type} (t : Table α) (n : String) :
    hasCol t n = (t.find? (fun c => c.1 == n)).isSome := by
  unfold hasCol getCol?
  cases hf : t.find? (fun c => c.1 == n) <;> simp [hf]

theorem hasCol_iff_mem {α : Type} {t : Table α} {n : String} :
    hasCol t n = true ↔ n ∈ colNames t := by
  rw [hasCol_eq_find_isSome]
  unfold colNames
  cases hf : t.find? (fun c => c.1 == n) with
  | none =>
    simp only [Option.isSome_none]
    constructor
    · intro h; cases h
    · intro hn
      rcases List.mem_map.mp hn with ⟨c, hc, rfl⟩
      have := List.find?_eq_none.mp hf c hc
      simp at this
  | some c =>
    simp only [Option.isSome_some]
    constructor
    · intro _
      have h1 := List.find?_some (p := fun c : String × List α => c.1 == n) hf
      have h2 := List.mem_of_find?_eq_some hf
      exact List.mem_map.mpr ⟨c, h2, by simpa using h1⟩
    · intro _; trivial

theorem getCol?_eq_some_of_hasCol {α : Type} {t : Table α} {n : String}
    (h : hasCol t n = true) : ∃ vs, getCol? t n = some vs := by
  unfold hasCol at h
  rcases Option.isSome_iff_exists.mp h with ⟨vs, hvs⟩
  exact ⟨vs, hvs⟩

theorem getCol?_mem {α : Type} {t : Table α} {n : String} {vs : List α}
    (h : getCol? t n = some vs) : (n, vs) ∈ t := by
  unfold getCol? at h
  rcases Option.map_eq_some'.mp h with ⟨c, hc, hsnd⟩
  have hfst : c.1 = n := by simpa using List.find?_some hc
  have hmem := List.mem_of_find?_eq_some hc
  have : c = (n, vs) := by
    cases c
    simp_all
  rw [← this]
  exact hmem

theorem dfEmpty_eq_false_of_mem {α : Type} {t : Table α} {c : String × List α}
    (hc : c ∈ t) (hne : c.2 ≠ []) : dfEmpty t = false := by
  unfold dfEmpty
  rw [List.all_eq_false]
  exact ⟨c, hc, by simpa using hne⟩

theorem find?_map_replace {α : Type} (t : Table α) (n : String) (vs : List α)
    (h : (t.find? (fun c => c.1 == n)).isSome = true) :
    (t.map (fun c => if c.1 == n then (n, vs) else c)).find? (fun c => c.1 == n) =
      some (n, vs) := by
  induction t with
  | nil => simp at h
  | cons d t ih =>
    rw [List.map_cons]
    by_cases hd : (d.1 == n) = true
    · rw [if_pos hd]
      rw [List.find?_cons_of_pos _ (by simp)]
    · rw [if_neg hd]
      rw [List.find?_cons_of_neg _ (by simpa using hd)]
      refine ih ?_
      rw [List.find?_cons_of_neg _ (by simpa using hd)] at h
      exact h

theorem find?_map_replace_ne {α : Type} (t : Table α) {n m : String} (vs : List α)
    (h : ¬m = n) :
    (t.map (fun c => if c.1 == n then (n, vs) else c)).find? (fun c => c.1 == m) =
      t.find? (fun c => c.1 == m) := by
  have hnm : ¬n = m := fun hh => h hh.symm
  induction t with
  | nil => simp
  | cons d t ih =>
    rw [List.map_cons]
    by_cases hd : (d.1 == n) = true
    · have hdn : d.1 = n := by simpa using hd
      rw [if_pos hd]
      rw [List.find?_cons_of_neg (p := fun c : String × List α => c.1 == m) _ (fun hc => hnm (by simpa using hc)),
          List.find?_cons_of_neg (p := fun c : String × List α => c.1 == m) _ (fun hc => hnm (hdn ▸ (by simpa using hc)))]
      exact ih
    · rw [if_neg hd]
      by_cases hdm : (d.1 == m) = true
      · rw [List.find?_cons_of_pos (p := fun c : String × List α => c.1 == m) _ hdm,
            List.find?_cons_of_pos (p := fun c : String × List α => c.1 == m) _ hdm]
      · rw [List.find?_cons_of_neg (p := fun c : String × List α => c.1 == m) _ (fun hc => hdm hc),
            List.find?_cons_of_neg (p := fun c : String × List α => c.1 == m) _ (fun hc => hdm hc)]
        exact ih

theorem getCol?_setCol_self {α : Type} (t : Table α) (n : String) (vs : List α) :
    getCol? (setCol t n vs) n = some vs := by
  unfold setCol
  split
  · next h =>
    unfold getCol?
    rw [find?_map_replace t n vs (by rw [← hasCol_eq_find_isSome]; exact h)]
    rfl
  · next h =>
    unfold getCol?
    rw [List.find?_append]
    have hnone : t.find? (fun c => c.1 == n) = none := by
      have h2 := hasCol_eq_find_isSome t n
      cases hf : t.find? (fun c => c.1 == n) with
      | none => rfl
      | some c =>
        rw [hf] at h2
        exact absurd (by rw [h2]; rfl) h
    rw [hnone]
    simp

theorem getCol?_setCol_ne {α : Type} (t : Table α) {n m : String} (vs : List α)
    (h : ¬m = n) : getCol? (setCol t n vs) m = getCol? t m := by
  have hnm : ¬n = m := fun hh => h hh.symm
  unfold setCol
  split
  · unfold getCol?
    rw [find?_map_replace_ne t vs h]
  · unfold getCol?
    congr 1
    rw [List.find?_append]
    cases hf : t.find? (fun c => c.1 == m) with
    | some c => rfl
    | none =>
      have h3 : List.find? (fun c : String × List α => c.1 == m) [(n, vs)] = none := by
        rw [List.find?_cons_of_neg (p := fun c : String × List α => c.1 == m) _
          (fun hc => hnm (by simpa using hc))]
        rfl
      simp [h3]

theorem hasCol_setCol {α : Type} (t : Table α) (n m : String) (vs : List α) :
    hasCol (setCol t n vs) m = (m == n || hasCol t m) := by
  by_cases h : m = n
  · subst h
    unfold hasCol
    rw [getCol?_setCol_self]
    simp
  · unfold hasCol
    rw [getCol?_setCol_ne t vs h]
    simp [h]

theorem colNames_setCol_mem {α : Type} (t : Table α) (n : String) (vs : List α) :
    ∀ m ∈ colNames (setCol t n vs), m ∈ colNames t ∨ m = n := by
  intro m hm
  unfold setCol at hm
  split at hm
  · unfold colNames at hm ⊢
    rw [List.map_map] at hm
    rcases List.mem_map.mp hm with ⟨c, hc, hcm⟩
    by_cases hcn : (c.1 == n) = true
    · right
      simp [Function.comp, hcn] at hcm
      exact hcm.symm
    · left
      simp only [Function.comp, hcn, if_false, Bool.false_eq_true] at hcm
      exact List.mem_map.mpr ⟨c, hc, by simpa using hcm⟩
  · unfold colNames at hm ⊢
    rw [List.map_append] at hm
    rcases List.mem_append.mp hm with hm | hm
    · exact Or.inl hm
    · right
      simpa using hm

theorem colNames_setCol_of_not_has {α : Type} {t : Table α} {n : String}
    (vs : List α) (h : hasCol t n = false) :
    colNames (setCol t n vs) = colNames t ++ [n] := by
  unfold setCol
  rw [if_neg (by simp [h])]
  unfold colNames
  simp

theorem mapCanonicalStep_none {α : Type} (ops : PipelineOps α) (raw : Table α)
    (acc : List String × Table α) (e : String × List String)
    (h : e.2.find? (fun c => hasCol raw c) = none) :
    mapCanonicalStep ops raw acc e = (acc.1 ++ [e.1], acc.2) := by
  unfold mapCanonicalStep
  rw [h]

theorem mapCanonicalStep_some {α : Type} (ops : PipelineOps α) (raw : Table α)
    (acc : List String × Table α) (e : String × List String) {c : String}
    (h : e.2.find? (fun c => hasCol raw c) = some c) :
    mapCanonicalStep ops raw acc e =
      (acc.1, acc.2 ++ [(e.1, kelvinToCelsius ops e.1 (getColD raw c))]) := by
  unfold mapCanonicalStep
  rw [h]

theorem foldl_mapCanonicalStep_missing {α : Type} (ops : PipelineOps α) (raw : Table α) :
    ∀ (es : List (String × List String)) (acc : List String × Table α),
      (es.foldl (mapCanonicalStep ops raw) acc).1 =
        acc.1 ++ (es.filter (fun p => p.2.all (fun c => !hasCol raw c))).map Prod.fst := by
  intro es
  induction es with
  | nil => intro acc; simp
  | cons e es ih =>
    intro acc
    rw [List.foldl_cons]
    cases h : e.2.find? (fun c => hasCol raw c) with
    | none =>
      have hall : e.2.all (fun c => !hasCol raw c) = true := by
        rw [List.all_eq_true]
        intro c hc
        have := List.find?_eq_none.mp h c hc
        simpa using this
      rw [mapCanonicalStep_none ops raw acc e h, ih,
        List.filter_cons_of_pos (by simpa using hall)]
      simp
    | some c =>
      have hnall : e.2.all (fun c => !hasCol raw c) = false := by
        rw [List.all_eq_false]
        have hp := List.find?_some (p := fun c => hasCol raw c) h
        have hm := List.mem_of_find?_eq_some h
        exact ⟨c, hm, by simpa using hp⟩
      rw [mapCanonicalStep_some ops raw acc e h, ih,
        List.filter_cons_of_neg (by simp [hnall])]

theorem foldl_mapCanonicalStep_names {α : Type} (ops : PipelineOps α) (raw : Table α) :
    ∀ (es : List (String × List String)) (acc : List String × Table α),
      colNames (es.foldl (mapCanonicalStep ops raw) acc).2 =
        colNames acc.2 ++ (es.filter (fun p => p.2.any (fun c => hasCol raw c))).map Prod.fst := by
  intro es
  induction es with
  | nil => intro acc; simp
  | cons e es ih =>
    intro acc
    rw [List.foldl_cons]
    cases h : e.2.find? (fun c => hasCol raw c) with
    | none =>
      have hnone : e.2.any (fun c => hasCol raw c) = false := by
        rw [List.any_eq_false]
        intro c hc
        have := List.find?_eq_none.mp h c hc
        simpa using this
      rw [mapCanonicalStep_none ops raw acc e h, ih,
        List.filter_cons_of_neg (by simp [hnone])]
    | some c =>
      have hany : e.2.any (fun c => hasCol raw c) = true := by
        rw [List.any_eq_true]
        have hp := List.find?_some (p := fun c => hasCol raw c) h
        have hm := List.mem_of_find?_eq_some h
        exact ⟨c, hm, by simpa using hp⟩
      rw [mapCanonicalStep_some ops raw acc e h, ih,
        List.filter_cons_of_pos (by simpa using hany)]
      unfold colNames
      simp

theorem foldl_mapCanonicalStep_table_append {α : Type} (ops : PipelineOps α) (raw : Table α) :
    ∀ (es : List (String × List String)) (acc : List String × Table α),
      ∃ rest, (es.foldl (mapCanonicalStep ops raw) acc).2 = acc.2 ++ rest := by
  intro es
  induction es with
  | nil => intro acc; exact ⟨[], by simp⟩
  | cons e es ih =>
    intro acc
    rw [List.foldl_cons]
    cases h : e.2.find? (fun c => hasCol raw c) with
    | none =>
      rw [mapCanonicalStep_none ops raw acc e h]
      exact ih _
    | some c =>
      rw [mapCanonicalStep_some ops raw acc e h]
      rcases ih (acc.1, acc.2 ++ [(e.1, kelvinToCelsius ops e.1 (getColD raw c))]) with ⟨rest, hrest⟩
      refine ⟨[(e.1, kelvinToCelsius ops e.1 (getColD raw c))] ++ rest, ?_⟩
      rw [hrest]
      simp

theorem hasCol_of_getCol?_some {α : Type} {t : Table α} {n : String} {vs : List α}
    (h : getCol? t n = some vs) : hasCol t n = true := by
  unfold hasCol
  rw [h]
  rfl

theorem latlonPart_ok_both {α : Type} {raw : Table α} {lv wv : α} {lvs wvs : List α}
    (hlat : getCol? raw "latitude" = some (lv :: lvs))
    (hlon : getCol? raw "longitude" = some (wv :: wvs)) :
    latlonPart raw = .ok [("latitude", List.replicate (nrows raw) lv),
                         ("longitude", List.replicate (nrows raw) wv)] := by
  have h1 : hasCol raw "latitude" = true := hasCol_of_getCol?_some hlat
  have h2 : hasCol raw "longitude" = true := hasCol_of_getCol?_some hlon
  unfold latlonPart latStep
  simp only [h1, h2, if_true, getColD, hlat, hlon, Option.getD_some, iloc0]
  rfl

theorem latlonPart_isOk {α : Type} (raw : Table α)
    (hlat : hasCol raw "latitude" = true → getColD raw "latitude" ≠ [])
    (hlon : hasCol raw "longitude" = true → getColD raw "longitude" ≠ []) :
    ∃ d, latlonPart raw = .ok d ∧ ∀ n ∈ colNames d, n = "latitude" ∨ n = "longitude" := by
  unfold latlonPart latStep
  by_cases h1 : hasCol raw "latitude" = true
  · cases hv : getColD raw "latitude" with
    | nil => exact absurd hv (hlat h1)
    | cons v vs =>
      by_cases h2 : hasCol raw "longitude" = true
      · cases hw : getColD raw "longitude" with
        | nil => exact absurd hw (hlon h2)
        | cons w ws =>
          refine ⟨[("latitude", List.replicate (nrows raw) v),
                   ("longitude", List.replicate (nrows raw) w)], ?_, ?_⟩
          · simp only [h1, h2, if_true, hv, hw, iloc0]
            rfl
          · intro n hn
            simp [colNames] at hn
            tauto
      · refine ⟨[("latitude", List.replicate (nrows raw) v)], ?_, ?_⟩
        · simp only [h1, if_true, hv, iloc0, if_neg h2]
        · intro n hn
          simp [colNames] at hn
          tauto
  · by_cases h2 : hasCol raw "longitude" = true
    · cases hw : getColD raw "longitude" with
      | nil => exact absurd hw (hlon h2)
      | cons w ws =>
        refine ⟨[("longitude", List.replicate (nrows raw) w)], ?_, ?_⟩
        · simp only [if_neg h1, h2, if_true, hw, iloc0]
          rfl
        · intro n hn
          simp [colNames] at hn
          tauto
    · refine ⟨[], ?_, ?_⟩
      · simp only [if_neg h1, if_neg h2]
      · intro n hn
        simp [colNames] at hn

theorem addRelativeHumidity_ok {α : Type} (ops : PipelineOps α) (df raw : Table α)
    {ds ts : List α} (hd : getCol? raw "d2m" = some ds)
    (ht : getCol? raw "t2m" = some ts) :
    addRelativeHumidity ops df raw =
      .ok (setCol df "rh_perc"
        ((List.zipWith ops.magnus (ds.map ops.kToC) (ts.map ops.kToC)).map ops.clip)) := by
  unfold addRelativeHumidity keyGet
  rw [ht]
  have hd2 : getCol? (setCol raw "t2m_c" (ts.map ops.kToC)) "d2m" = some ds := by
    rw [getCol?_setCol_ne _ _ (by decide)]
    exact hd
  have ht2 : getCol? (setCol raw "t2m_c" (ts.map ops.kToC)) "t2m_c" =
      some (ts.map ops.kToC) := getCol?_setCol_self _ _ _
  have h1 : hasCol (setCol raw "t2m_c" (ts.map ops.kToC)) "d2m" = true :=
    hasCol_of_getCol?_some hd2
  have h2 : hasCol (setCol raw "t2m_c" (ts.map ops.kToC)) "t2m_c" = true :=
    hasCol_of_getCol?_some ht2
  unfold add_rh_from_magnus
  simp only [h1, h2, Bool.and_self, if_true, getColD, hd2, ht2, Option.getD_some]
  congr 1
  rw [getCol?_setCol_self]
  rfl

theorem addWindspeed_ok {α : Type} (ops : PipelineOps α) (df raw : Table α)
    {us vs : List α} (hu : getCol? raw "u10" = some us)
    (hv : getCol? raw "v10" = some vs) :
    addWindspeed ops df raw =
      .ok (setCol df "windspeed_ms" (List.zipWith ops.hyp us vs)) := by
  unfold addWindspeed keyGet
  rw [hu, hv]

/-- C1 (amended): for every load whose merged raw table carries the
derived-metric source columns (`t2m`, `d2m`, `u10`, `v10`), with any present
latitude/longitude column non-empty, if one or more canonical columns have no
accepted raw source column then the load computes the derived metrics and then
fails with a single missing-variables error naming every missing canonical
column (not just the first). -/
theorem load_reports_all_missing_variables {α : Type} (ops : PipelineOps α)
    (name : String) (raw : Table α)
    (ht2m : hasCol raw "t2m" = true) (hd2m : hasCol raw "d2m" = true)
    (hu10 : hasCol raw "u10" = true) (hv10 : hasCol raw "v10" = true)
    (hlat : hasCol raw "latitude" = true → getColD raw "latitude" ≠ [])
    (hlon : hasCol raw "longitude" = true → getColD raw "longitude" ≠ [])
    (hmiss : missingOf raw ≠ []) :
    load_location_timeseries ops name raw =
      .error (.missingVariables (missingOf raw)) := by
  obtain ⟨d2, hd2eq, _⟩ := latlonPart_isOk raw hlat hlon
  obtain ⟨ds, hds⟩ := getCol?_eq_some_of_hasCol hd2m
  obtain ⟨ts, hts⟩ := getCol?_eq_some_of_hasCol ht2m
  obtain ⟨us, hus⟩ := getCol?_eq_some_of_hasCol hu10
  obtain ⟨vs, hvs⟩ := getCol?_eq_some_of_hasCol hv10
  have hmd1 : (mapCanonical ops raw d2).1 = missingOf raw := by
    unfold mapCanonical missingOf
    rw [foldl_mapCanonicalStep_missing]
    simp
  unfold load_location_timeseries
  rw [hd2eq]
  simp only []
  rw [addRelativeHumidity_ok ops (mapCanonical ops raw d2).2 raw hds hts]
  simp only []
  rw [addWindspeed_ok ops _ raw hus hvs]
  simp only [hmd1]
  rw [if_pos hmiss]

/-- Counterexample to C1 as stated: on a merged table lacking `t2m` (so that
both `temperature_c` and `total_precipitation` are missing), the load dies
with a pandas `KeyError` naming only `t2m`, raised while computing the
derived humidity, instead of the single error naming every missing
variable. -/
theorem load_missing_t2m_keyerror :
    loadErr realOps "gothenburg" rawNoT2mTp = some (.keyError ["t2m"]) ∧
    missingOf rawNoT2mTp = ["temperature_c", "total_precipitation"] ∧
    some (LoadError.missingVariables (missingOf rawNoT2mTp)) ≠
      loadErr realOps "gothenburg" rawNoT2mTp := by
  refine ⟨by decide, by decide, by decide⟩

/-- Witness for C1 (amended) at a table lacking only `tp`. -/
theorem load_reports_all_missing_variables_witness :
    missingOf rawNoTp = ["total_precipitation"] ∧
    load_location_timeseries realOps "gothenburg" rawNoTp =
      .error (.missingVariables (missingOf rawNoTp)) :=
  ⟨by decide,
    load_reports_all_missing_variables realOps "gothenburg" rawNoTp
      (by decide) (by decide) (by decide) (by decide)
      (fun _ => by rw [show getColD rawNoTp "latitude" = [(57.7 : ℝ)] from rfl]; simp)
      (fun _ => by rw [show getColD rawNoTp "longitude" = [(11.97 : ℝ)] from rfl]; simp)
      (by decide)⟩

theorem setCol_of_not_has {α : Type} {t : Table α} {n : String} (vs : List α)
    (h : hasCol t n = false) : setCol t n vs = t ++ [(n, vs)] := by
  unfold setCol
  rw [if_neg (by simp [h])]

/-- C4: loading a merged raw table that contains all nine raw short-code
variables, with latitude and longitude present and at least one data row,
succeeds with no missing-variable failure, and the resulting table's columns
are exactly the canonical set plus latitude, longitude, relative humidity and
wind speed. -/
theorem load_all_nine_variables_ok {α : Type} (ops : PipelineOps α) (name : String)
    (raw : Table α) (hwf : TableWF raw) (hn : 0 < nrows raw)
    (ht2m : hasCol raw "t2m" = true) (hd2m : hasCol raw "d2m" = true)
    (htp : hasCol raw "tp" = true) (hssrd : hasCol raw "ssrd" = true)
    (hstrd : hasCol raw "strd" = true) (hsp : hasCol raw "sp" = true)
    (hsnowc : hasCol raw "snowc" = true) (hu10 : hasCol raw "u10" = true)
    (hv10 : hasCol raw "v10" = true)
    (hlat : hasCol raw "latitude" = true) (hlon : hasCol raw "longitude" = true) :
    ∃ u, load_location_timeseries ops name raw = .ok u ∧
      colNames u = expectedLoadedCols := by
  obtain ⟨lvs, hlvs⟩ := getCol?_eq_some_of_hasCol hlat
  obtain ⟨wvs, hwvs⟩ := getCol?_eq_some_of_hasCol hlon
  have hlvlen : lvs.length = nrows raw := hwf _ (getCol?_mem hlvs)
  have hwvlen : wvs.length = nrows raw := hwf _ (getCol?_mem hwvs)
  obtain ⟨lv, lvs', hlv⟩ : ∃ v vs', lvs = v :: vs' := by
    cases lvs with
    | nil => rw [← hlvlen] at hn; simp at hn
    | cons v vs' => exact ⟨v, vs', rfl⟩
  obtain ⟨wv, wvs', hwv⟩ : ∃ v vs', wvs = v :: vs' := by
    cases wvs with
    | nil => rw [← hwvlen] at hn; simp at hn
    | cons v vs' => exact ⟨v, vs', rfl⟩
  subst hlv hwv
  have hd2eq := latlonPart_ok_both hlvs hwvs
  obtain ⟨ds, hds⟩ := getCol?_eq_some_of_hasCol hd2m
  obtain ⟨ts, hts⟩ := getCol?_eq_some_of_hasCol ht2m
  obtain ⟨us, hus⟩ := getCol?_eq_some_of_hasCol hu10
  obtain ⟨vvs, hvvs⟩ := getCol?_eq_some_of_hasCol hv10
  set d2 : Table α := [("latitude", List.replicate (nrows raw) lv),
                       ("longitude", List.replicate (nrows raw) wv)] with hd2def
  have hmd1 : (mapCanonical ops raw d2).1 = [] := by
    unfold mapCanonical
    rw [foldl_mapCanonicalStep_missing]
    simp [CANONICAL_COLUMNS, ht2m, hd2m, htp, hssrd, hstrd, hsnowc, hu10, hv10]
  have hmdnames : colNames (mapCanonical ops raw d2).2 =
      ["latitude", "longitude", "temperature_c", "dewpoint_c",
       "total_precipitation", "surface_solar_radiation_downwards",
       "surface_thermal_radiation_downwards", "snow_cover",
       "windspeed_u_ms", "windspeed_v_ms"] := by
    unfold mapCanonical
    rw [foldl_mapCanonicalStep_names]
    simp [CANONICAL_COLUMNS, ht2m, hd2m, htp, hssrd, hstrd, hsnowc, hu10, hv10,
      hd2def, colNames]
  have hrhabsent : hasCol (mapCanonical ops raw d2).2 "rh_perc" = false := by
    rw [← Bool.not_eq_true, hasCol_iff_mem, hmdnames]
    decide
  set rhvals := (List.zipWith ops.magnus (ds.map ops.kToC) (ts.map ops.kToC)).map ops.clip
    with hrhvals
  have hwsabsent :
      hasCol (setCol (mapCanonical ops raw d2).2 "rh_perc" rhvals) "windspeed_ms" = false := by
    rw [← Bool.not_eq_true, hasCol_iff_mem,
      colNames_setCol_of_not_has rhvals hrhabsent, hmdnames]
    decide
  set wsvals := List.zipWith ops.hyp us vvs with hwsvals
  have hfinalnames :
      colNames (setCol (setCol (mapCanonical ops raw d2).2 "rh_perc" rhvals)
        "windspeed_ms" wsvals) = expectedLoadedCols := by
    rw [colNames_setCol_of_not_has wsvals hwsabsent,
      colNames_setCol_of_not_has rhvals hrhabsent, hmdnames]
    rfl
  have hlatmem : ("latitude", List.replicate (nrows raw) lv) ∈
      setCol (setCol (mapCanonical ops raw d2).2 "rh_perc" rhvals)
        "windspeed_ms" wsvals := by
    obtain ⟨rest, hrest⟩ := foldl_mapCanonicalStep_table_append ops raw
      CANONICAL_COLUMNS ([], d2)
    rw [setCol_of_not_has wsvals hwsabsent, setCol_of_not_has rhvals hrhabsent]
    have : ("latitude", List.replicate (nrows raw) lv) ∈ (mapCanonical ops raw d2).2 := by
      unfold mapCanonical
      rw [hrest]
      simp [hd2def]
    simp [this]
  have hnonempty : dfEmpty (setCol (setCol (mapCanonical ops raw d2).2 "rh_perc" rhvals)
      "windspeed_ms" wsvals) = false := by
    refine dfEmpty_eq_false_of_mem hlatmem ?_
    simp
    omega
  refine ⟨_, ?_, hfinalnames⟩
  unfold load_location_timeseries
  rw [hd2eq]
  simp only []
  rw [addRelativeHumidity_ok ops (mapCanonical ops raw d2).2 raw hds hts]
  simp only []
  rw [addWindspeed_ok ops _ raw hus hvvs]
  simp only [hmd1, ← hrhvals, ← hwsvals]
  rw [if_neg (by simp)]
  rw [if_neg (by simp [hnonempty])]

/-- Witness for C4 on the one-row mock table with all nine variables. -/
theorem load_all_nine_variables_ok_witness :
    TableWF rawAllVars ∧ 0 < nrows rawAllVars ∧
    ∃ u, load_location_timeseries realOps "gothenburg" rawAllVars = .ok u ∧
      colNames u = expectedLoadedCols :=
  ⟨by decide, by decide,
    load_all_nine_variables_ok realOps "gothenburg" rawAllVars (by decide) (by decide)
      (by decide) (by decide) (by decide) (by decide) (by decide) (by decide)
      (by decide) (by decide) (by decide) (by decide) (by decide)⟩

theorem addRelativeHumidity_ok_shape {α : Type} {ops : PipelineOps α}
    {df raw d : Table α} (h : addRelativeHumidity ops df raw = .ok d) :
    ∃ vals, d = setCol df "rh_perc" vals := by
  unfold addRelativeHumidity at h
  split at h
  · cases h
  · split at h
    · cases h
    · exact ⟨_, (Except.ok.inj h).symm⟩

theorem addWindspeed_ok_shape {α : Type} {ops : PipelineOps α}
    {df raw d : Table α} (h : addWindspeed ops df raw = .ok d) :
    ∃ vals, d = setCol df "windspeed_ms" vals := by
  unfold addWindspeed at h
  split at h
  · cases h
  · split at h
    · cases h
    · exact ⟨_, (Except.ok.inj h).symm⟩

theorem latStep_names {α : Type} {raw d : Table α}
    (h : latStep raw = .ok d) : ∀ n ∈ colNames d, n = "latitude" := by
  unfold latStep at h
  split at h
  · split at h
    · cases h
    · have hd := Except.ok.inj h
      subst hd
      intro n hn
      simpa [colNames] using hn
  · have hd := Except.ok.inj h
    subst hd
    intro n hn
    simp [colNames] at hn

theorem latlonPart_names {α : Type} {raw d : Table α}
    (h : latlonPart raw = .ok d) :
    ∀ n ∈ colNames d, n = "latitude" ∨ n = "longitude" := by
  unfold latlonPart at h
  split at h
  · cases h
  · next df1 heq =>
    split at h
    · split at h
      · cases h
      · have hd := Except.ok.inj h
        subst hd
        intro n hn
        unfold colNames at hn
        rw [List.map_append] at hn
        rcases List.mem_append.mp hn with hn | hn
        · exact Or.inl (latStep_names heq n hn)
        · right
          simpa using hn
    · have hd := Except.ok.inj h
      subst hd
      intro n hn
      exact Or.inl (latStep_names heq n hn)

theorem load_ok_analysis {α : Type} {ops : PipelineOps α} {name : String}
    {raw u : Table α} (h : load_location_timeseries ops name raw = .ok u) :
    missingOf raw = [] ∧ ∀ n ∈ colNames u, n ∈ expectedLoadedCols := by
  unfold load_location_timeseries at h
  split at h
  · cases h
  · next df2 hll =>
    split at h
    · cases h
    · next df3 hrh =>
      split at h
      · cases h
      · next df4 hws =>
        split at h
        · cases h
        · next hmd =>
          split at h
          · cases h
          · have hu := Except.ok.inj h
            subst hu
            constructor
            · have h1 : (mapCanonical ops raw df2).1 = missingOf raw := by
                unfold mapCanonical missingOf
                rw [foldl_mapCanonicalStep_missing]
                simp
              rw [← h1]
              exact not_ne_iff.mp hmd
            · obtain ⟨rh, hrheq⟩ := addRelativeHumidity_ok_shape hrh
              obtain ⟨ws, hwseq⟩ := addWindspeed_ok_shape hws
              subst hrheq
              subst hwseq
              intro n hn
              have hcanon : ∀ p ∈ CANONICAL_COLUMNS, p.1 ∈ expectedLoadedCols := by
                decide
              rcases colNames_setCol_mem _ _ _ n hn with hn2 | rfl
              · rcases colNames_setCol_mem _ _ _ n hn2 with hn3 | rfl
                · have hmdn : colNames (mapCanonical ops raw df2).2 =
                      colNames df2 ++
                        (CANONICAL_COLUMNS.filter
                          (fun p => p.2.any (fun c => hasCol raw c))).map Prod.fst := by
                    unfold mapCanonical
                    rw [foldl_mapCanonicalStep_names]
                  rw [hmdn] at hn3
                  rcases List.mem_append.mp hn3 with hn4 | hn4
                  · rcases latlonPart_names hll n hn4 with rfl | rfl
                    · decide
                    · decide
                  · rcases List.mem_map.mp hn4 with ⟨p, hp, rfl⟩
                    exact hcanon p (List.mem_of_mem_filter hp)
                · decide
              · decide

/-- C3 (amended): the canonical columns form a fixed, closed set — every
column of a successfully loaded table lies in the fixed canonical list plus
latitude, longitude and the two derived columns — and any canonical column
with no accepted raw source column present causes the load to fail.  (A raw
variable that is not mapped to any canonical column is silently ignored, not
reported; see the counterexample.) -/
theorem canonical_columns_closed_set :
    (∀ {α : Type} (ops : PipelineOps α) (name : String) (raw u : Table α),
      load_location_timeseries ops name raw = .ok u →
      ∀ n ∈ colNames u, n ∈ expectedLoadedCols) ∧
    (∀ {α : Type} (ops : PipelineOps α) (name : String) (raw : Table α),
      (∃ p ∈ CANONICAL_COLUMNS, ∀ c ∈ p.2, hasCol raw c = false) →
      ∀ u, load_location_timeseries ops name raw ≠ .ok u) := by
  constructor
  · intro α ops name raw u h
    exact (load_ok_analysis h).2
  · rintro α ops name raw ⟨p, hp, hnone⟩ u h
    have h1 := (load_ok_analysis h).1
    have h2 : p.1 ∈ missingOf raw := by
      unfold missingOf
      refine List.mem_map.mpr ⟨p, ?_, rfl⟩
      refine List.mem_filter.mpr ⟨hp, ?_⟩
      rw [List.all_eq_true]
      intro c hc
      simp [hnone c hc]
    rw [h1] at h2
    cases h2

/-- Counterexample to C3 as stated: the archive variable `sp`
(surface pressure) is present in the raw table, is mapped to no canonical
column, and the load nevertheless succeeds — an unmapped raw variable is
silently dropped, not reported as missing. -/
theorem unmapped_raw_variable_ignored :
    hasCol rawAllVars "sp" = true ∧
    (∀ p ∈ CANONICAL_COLUMNS, "sp" ∉ p.2) ∧
    loadOk realOps "gothenburg" rawAllVars = true :=
  ⟨by decide, by decide, by decide⟩

/-- Witness for C3 (amended) at a table whose `total_precipitation` has no
raw source. -/
theorem canonical_columns_closed_set_witness :
    (("total_precipitation", ["tp"]) ∈ CANONICAL_COLUMNS ∧
      ∀ c ∈ ["tp"], hasCol rawNoTp c = false) ∧
    ∀ u, load_location_timeseries realOps "gothenburg" rawNoTp ≠ .ok u :=
  ⟨⟨by decide, by decide⟩,
    canonical_columns_closed_set.2 realOps "gothenburg" rawNoTp
      ⟨("total_precipitation", ["tp"]), by decide, by decide⟩⟩

theorem exp_lb_of_interest : (3.4966 : ℝ) ≤ Real.exp 1.267 := by
  have h1 : (1.8765 : ℝ) ≤ Real.exp 0.6335 := by
    have hsum := Real.sum_le_exp_of_nonneg (x := 0.6335) (by norm_num) 4
    rw [Finset.sum_range_succ, Finset.sum_range_succ, Finset.sum_range_succ,
        Finset.sum_range_one] at hsum
    norm_num [Nat.factorial] at hsum
    linarith
  have h2 : Real.exp 1.267 = Real.exp 0.6335 * Real.exp 0.6335 := by
    rw [← Real.exp_add]; norm_num
  rw [h2]
  nlinarith [Real.exp_pos (0.6335 : ℝ), h1]

theorem exp_ub_of_interest : Real.exp 1.268 ≤ (3.5567 : ℝ) := by
  have h1 : Real.exp 0.634 ≤ 1.8859 := by
    have hb := Real.exp_bound' (x := 0.634) (by norm_num) (by norm_num) (n := 4) (by norm_num)
    rw [Finset.sum_range_succ, Finset.sum_range_succ, Finset.sum_range_succ,
        Finset.sum_range_one] at hb
    norm_num [Nat.factorial] at hb
    linarith
  have h2 : Real.exp 1.268 = Real.exp 0.634 * Real.exp 0.634 := by
    rw [← Real.exp_add]; norm_num
  rw [h2]
  nlinarith [Real.exp_pos (0.634 : ℝ), h1]


theorem magnus_clip_bound {y : ℝ} (hya : y ≤ -1.267) (hyb : -1.268 ≤ y) :
    |min 100 (max 0 (100 * Real.exp y)) - 28.1| ≤ 0.5 := by
  have hub : Real.exp y ≤ 0.286 := by
    have hle : Real.exp y ≤ Real.exp (-1.267) := Real.exp_le_exp.mpr hya
    have hneg : Real.exp (-1.267 : ℝ) = (Real.exp 1.267)⁻¹ := by
      rw [← Real.exp_neg]
    have hinv : (Real.exp 1.267)⁻¹ ≤ (3.4966 : ℝ)⁻¹ :=
      inv_anti₀ (by norm_num) exp_lb_of_interest
    have hfin : (3.4966 : ℝ)⁻¹ ≤ 0.286 := by norm_num
    linarith [hneg ▸ hle]
  have hlb : (0.276 : ℝ) ≤ Real.exp y := by
    have hle : Real.exp (-1.268) ≤ Real.exp y := Real.exp_le_exp.mpr hyb
    have hneg : Real.exp (-1.268 : ℝ) = (Real.exp 1.268)⁻¹ := by
      rw [← Real.exp_neg]
    have hinv : (3.5567 : ℝ)⁻¹ ≤ (Real.exp 1.268)⁻¹ :=
      inv_anti₀ (Real.exp_pos _) exp_ub_of_interest
    have hfin : (0.276 : ℝ) ≤ (3.5567 : ℝ)⁻¹ := by norm_num
    linarith [hneg ▸ hle]
  rw [max_eq_right (by linarith), min_eq_right (by linarith), abs_le]
  constructor <;> linarith

/-- C6: the relative-humidity column computed by the pipeline is, row by row,
exactly the clamped Magnus formula the specification states (with a = 17.27,
b = 237.7, dewpoint and temperature converted from Kelvin to Celsius); and at
dewpoint 280.15 K, temperature 300.15 K it lies within 0.5 of 28.1 percent. -/
theorem magnus_humidity_formula :
    (∀ (df raw : Table ℝ) (ds ts : List ℝ), getCol? raw "d2m" = some ds →
      getCol? raw "t2m" = some ts →
      addRelativeHumidity realOps df raw =
        .ok (setCol df "rh_perc" (List.zipWith specMagnusRhFromKelvin ds ts))) ∧
    |specMagnusRhFromKelvin 280.15 300.15 - 28.1| ≤ 0.5 := by
  constructor
  · intro df raw ds ts hd ht
    rw [addRelativeHumidity_ok realOps df raw hd ht]
    congr 2
    rw [List.map_zipWith, List.zipWith_map]
    rfl
  · unfold specMagnusRhFromKelvin
    exact magnus_clip_bound (by norm_num) (by norm_num)

/-- Witness for C6 on the mock dataset row (dewpoint 280.15 K, temperature
300.15 K). -/
theorem magnus_humidity_witness :
    getCol? rawAllVars "d2m" = some [(280.15 : ℝ)] ∧
    getCol? rawAllVars "t2m" = some [(300.15 : ℝ)] ∧
    addRelativeHumidity realOps [] rawAllVars =
      .ok (setCol [] "rh_perc"
        (List.zipWith specMagnusRhFromKelvin [(280.15 : ℝ)] [(300.15 : ℝ)])) :=
  ⟨rfl, rfl, magnus_humidity_formula.1 [] rawAllVars _ _ rfl rfl⟩


theorem delete_location_state_id (S : CacheState) (name : String)
    (e1 : S.locations.filter (fun r => !(r.filename == deleteKey S name)) = S.locations)
    (e2 : S.weather.filter (fun r => !(r.filename == deleteKey S name)) = S.weather)
    (e3 : S.files.filter (fun f => !matchesDeletePattern (deleteKey S name) f) = S.files) :
    (delete_location S name).state = S := by
  obtain ⟨l, w, fs, d⟩ := S
  cases d
  · simp only [delete_location, Bool.false_eq_true, if_false]
    rw [e3]
  · simp only [delete_location, if_true]
    rw [e1, e2, e3]

/-- C5: the delete round-trip.  In a cached state where the requested name
resolves to a single filename key (every location row carrying the display
name or the slug-equivalent filename has that key, and every file matching
the slug patterns matches the key patterns), one `delete_location` removes
every matching row from both tables and every matching file on disk, and
running delete again on the same name reports "not found" and leaves the
state unchanged, raising no error. -/
theorem delete_location_round_trip (st : CacheState) (name : String)
    (hdb : st.dbExists = true)
    (hname : ∀ r ∈ st.locations, r.name = name → r.filename = deleteKey st name)
    (hslugL : ∀ r ∈ st.locations, r.filename = slugify name →
      r.filename = deleteKey st name)
    (hslugW : ∀ r ∈ st.weather, r.filename = slugify name →
      r.filename = deleteKey st name)
    (hslugF : ∀ f ∈ st.files, matchesDeletePattern (slugify name) f = true →
      matchesDeletePattern (deleteKey st name) f = true) :
    (∀ r ∈ (delete_location st name).state.weather, ¬r.filename = deleteKey st name) ∧
    (∀ r ∈ (delete_location st name).state.locations, ¬r.filename = deleteKey st name) ∧
    (∀ f ∈ (delete_location st name).state.files,
      matchesDeletePattern (deleteKey st name) f = false) ∧
    (delete_location (delete_location st name).state name).notFound = true ∧
    (delete_location (delete_location st name).state name).state =
      (delete_location st name).state := by
  have hW : (delete_location st name).state.weather =
      st.weather.filter (fun r => !(r.filename == deleteKey st name)) := by
    simp [delete_location, hdb]
  have hL : (delete_location st name).state.locations =
      st.locations.filter (fun r => !(r.filename == deleteKey st name)) := by
    simp [delete_location, hdb]
  have hF : (delete_location st name).state.files =
      st.files.filter (fun f => !matchesDeletePattern (deleteKey st name) f) := by
    simp [delete_location]
  have hDB : (delete_location st name).state.dbExists = true := by
    simp [delete_location, hdb]
  have cW : ∀ r ∈ (delete_location st name).state.weather,
      ¬r.filename = deleteKey st name := by
    intro r hr
    rw [hW] at hr
    have := (List.mem_filter.mp hr).2
    simpa using this
  have cL : ∀ r ∈ (delete_location st name).state.locations,
      ¬r.filename = deleteKey st name := by
    intro r hr
    rw [hL] at hr
    have := (List.mem_filter.mp hr).2
    simpa using this
  have cF : ∀ f ∈ (delete_location st name).state.files,
      matchesDeletePattern (deleteKey st name) f = false := by
    intro f hf
    rw [hF] at hf
    have := (List.mem_filter.mp hf).2
    simpa using this
  have memW : ∀ r ∈ (delete_location st name).state.weather, r ∈ st.weather := by
    intro r hr
    rw [hW] at hr
    exact (List.mem_filter.mp hr).1
  have memL : ∀ r ∈ (delete_location st name).state.locations, r ∈ st.locations := by
    intro r hr
    rw [hL] at hr
    exact (List.mem_filter.mp hr).1
  have memF : ∀ f ∈ (delete_location st name).state.files, f ∈ st.files := by
    intro f hf
    rw [hF] at hf
    exact (List.mem_filter.mp hf).1
  -- the second resolution finds nothing: all rows carrying the display name
  -- or the slug filename were removed by the first run
  have hres2 : resolve_cache_key (delete_location st name).state name = none := by
    unfold resolve_cache_key
    rw [hDB]
    simp only [Bool.not_true, Bool.false_eq_true, if_false]
    have hfind1 : (delete_location st name).state.locations.find?
        (fun r => r.name == name) = none := by
      rw [List.find?_eq_none]
      intro r hr hbeq
      have hrname : r.name = name := by simpa using hbeq
      exact cL r hr (hname r (memL r hr) hrname)
    have hfind2 : (delete_location st name).state.locations.find?
        (fun r => r.filename == slugify name) = none := by
      rw [List.find?_eq_none]
      intro r hr hbeq
      have hrfn : r.filename = slugify name := by simpa using hbeq
      exact cL r hr (hslugL r (memL r hr) hrfn)
    rw [hfind1, hfind2]
  have hkey2 : deleteKey (delete_location st name).state name = slugify name := by
    unfold deleteKey
    rw [hres2]
    rfl
  have hWC2 : deleteWeatherCount (delete_location st name).state name = 0 := by
    unfold deleteWeatherCount
    rw [hDB, if_pos rfl, hkey2]
    rw [List.length_eq_zero, List.filter_eq_nil]
    intro r hr hbeq
    have hrfn : r.filename = slugify name := by simpa using hbeq
    exact cW r hr (hslugW r (memW r hr) hrfn)
  have hLC2 : deleteLocationCount (delete_location st name).state name = 0 := by
    unfold deleteLocationCount
    rw [hDB, if_pos rfl, hkey2]
    rw [List.length_eq_zero, List.filter_eq_nil]
    intro r hr hbeq
    have hrfn : r.filename = slugify name := by simpa using hbeq
    exact cL r hr (hslugL r (memL r hr) hrfn)
  have hRF2 : deleteRemovedFiles (delete_location st name).state name = [] := by
    unfold deleteRemovedFiles
    rw [hkey2]
    rw [List.filter_eq_nil]
    intro f hf hm
    have := hslugF f (memF f hf) hm
    rw [cF f hf] at this
    cases this
  refine ⟨cW, cL, cF, ?_, ?_⟩
  · show ((deleteRemovedFiles (delete_location st name).state name).length == 0 &&
      deleteWeatherCount (delete_location st name).state name == 0 &&
      deleteLocationCount (delete_location st name).state name == 0) = true
    rw [hWC2, hLC2, hRF2]
    rfl
  · apply delete_location_state_id
    · rw [hkey2, List.filter_eq_self]
      intro r hr
      have hb : (r.filename == slugify name) = false := by
        cases hb : (r.filename == slugify name) with
        | false => rfl
        | true =>
          have hrfn : r.filename = slugify name := by simpa using hb
          exact absurd (hslugL r (memL r hr) hrfn) (cL r hr)
      rw [hb]
      rfl
    · rw [hkey2, List.filter_eq_self]
      intro r hr
      have hb : (r.filename == slugify name) = false := by
        cases hb : (r.filename == slugify name) with
        | false => rfl
        | true =>
          have hrfn : r.filename = slugify name := by simpa using hb
          exact absurd (hslugW r (memW r hr) hrfn) (cW r hr)
      rw [hb]
      rfl
    · rw [hkey2, List.filter_eq_self]
      intro f hf
      have hm : matchesDeletePattern (slugify name) f = false := by
        cases hmm : matchesDeletePattern (slugify name) f with
        | false => rfl
        | true =>
          have := hslugF f (memF f hf) hmm
          rw [cF f hf] at this
          cases this
      rw [hm]
      rfl

/-- Witness for C5 on the cached Gothenburg state of the repository's delete
tests: the second delete of the same name reports "not found". -/
theorem delete_location_round_trip_witness :
    cachedGothenburg.dbExists = true ∧
    (delete_location (delete_location cachedGothenburg "Gothenburg").state
      "Gothenburg").notFound = true :=
  ⟨by decide,
    (delete_location_round_trip cachedGothenburg "Gothenburg" (by decide) (by decide)
      (by decide) (by decide) (by decide)).2.2.2.1⟩

theorem cleanFrameStep_error {β : Type} (parseTs : β → Option β) (acc : CleanAcc β)
    (f : Table (Option β)) (h : findTimeCol (colNames f) = none) :
    cleanFrameStep parseTs acc f = .error .missingTimeColumn := by
  unfold cleanFrameStep
  rw [h]

theorem cleanFrameStep_ok {β : Type} (parseTs : β → Option β) (acc : CleanAcc β)
    (f : Table (Option β)) {tc : String} (h : findTimeCol (colNames f) = some tc) :
    ∃ acc2, cleanFrameStep parseTs acc f = .ok acc2 := by
  unfold cleanFrameStep
  rw [h]
  exact ⟨_, rfl⟩

theorem foldlM_cleanFrameStep_error {β : Type} (parseTs : β → Option β) :
    ∀ (frames : List (Table (Option β))) (acc : CleanAcc β)
      (f : Table (Option β)), f ∈ frames → findTimeCol (colNames f) = none →
      frames.foldlM (cleanFrameStep parseTs) acc = .error .missingTimeColumn := by
  intro frames
  induction frames with
  | nil => intro acc f hf; cases hf
  | cons g gs ih =>
    intro acc f hf hnone
    rw [List.foldlM_cons]
    cases hg : findTimeCol (colNames g) with
    | none =>
      rw [cleanFrameStep_error parseTs acc g hg]
      rfl
    | some tc =>
      obtain ⟨acc2, hacc2⟩ := cleanFrameStep_ok parseTs acc g hg
      rw [hacc2]
      have hfgs : f ∈ gs := by
        rcases List.mem_cons.mp hf with rfl | hfgs
        · rw [hg] at hnone; cases hnone
        · exact hfgs
      have := ih acc2 f hfgs hnone
      calc (Except.ok acc2 >>= fun acc3 => gs.foldlM (cleanFrameStep parseTs) acc3) =
          gs.foldlM (cleanFrameStep parseTs) acc2 := rfl
        _ = .error .missingTimeColumn := this

/-- C8: the timestamp column of a CSV fragment is chosen as the first match
in the fixed priority order `timestamp`, `valid_time`, `time` (`findTimeCol`
agrees with the specification's priority rule `specTimeCol`); when a fragment
contains none of these columns, the frame-cleaning stage of the load fails
with the missing-time-column error, whose source message names all the
required time columns. -/
theorem time_column_priority :
    (∀ header : List String, findTimeCol header = specTimeCol header) ∧
    (∀ {β : Type} (parseTs : β → Option β) (frames : List (Table (Option β)))
      (f : Table (Option β)), f ∈ frames → findTimeCol (colNames f) = none →
      cleanFramesCore parseTs frames = .error .missingTimeColumn) ∧
    ("timestamp".toList <:+: timeColumnMessage.toList ∧
     "valid_time".toList <:+: timeColumnMessage.toList ∧
     "time".toList <:+: timeColumnMessage.toList) := by
  refine ⟨?_, ?_, ?_⟩
  · intro header
    unfold findTimeCol specTimeCol timeCandidates
    by_cases h1 : header.contains "timestamp"
    · rw [List.find?_cons_of_pos (p := fun c => header.contains c) _ h1, if_pos h1]
    · rw [List.find?_cons_of_neg (p := fun c => header.contains c) _ (by simpa using h1),
        if_neg h1]
      by_cases h2 : header.contains "valid_time"
      · rw [List.find?_cons_of_pos (p := fun c => header.contains c) _ h2, if_pos h2]
      · rw [List.find?_cons_of_neg (p := fun c => header.contains c) _ (by simpa using h2),
          if_neg h2]
        by_cases h3 : header.contains "time"
        · rw [List.find?_cons_of_pos (p := fun c => header.contains c) _ h3, if_pos h3]
        · rw [List.find?_cons_of_neg (p := fun c => header.contains c) _ (by simpa using h3),
            if_neg h3]
          rfl
  · intro β parseTs frames f hf hnone
    exact foldlM_cleanFrameStep_error parseTs frames ⟨[], none, none⟩ f hf hnone
  · refine ⟨?_, ?_, ?_⟩ <;> decide

/-- Witness for C8: an archive whose second fragment has no time column. -/
theorem time_column_priority_witness :
    frameNoTime ∈ [frameValidTime, frameNoTime] ∧
    findTimeCol (colNames frameNoTime) = none ∧
    cleanFramesCore idParse [frameValidTime, frameNoTime] =
      .error .missingTimeColumn :=
  ⟨by decide, by decide,
    time_column_priority.2.1 idParse [frameValidTime, frameNoTime] frameNoTime
      (by decide) (by decide)⟩

/-- C2 (the code evaluated at the failing input): `city` is not a known
field, yet the comparison-form filter `city = 5` translates successfully and
`_list_cached_locations` embeds it verbatim in the query it executes — the
unknown field is silently passed through into the generated predicate, and
any failure happens only inside the store at query time.  The unknown-field
rejection does fire for the `contains` form, and `replace_field` carries the
same check for the comparison form, but its regex alternation only matches
the six known field names, so that check is unreachable. -/
theorem unknown_field_passes_through :
    field_map.all (fun p => !(p.1 == "city")) = true ∧
    parse_filter "city = 5".toList = .ok "city = 5".toList ∧
    buildListQuery (some "city = 5".toList) =
      .ok (baseQuery ++ " WHERE ".toList ++ "city = 5".toList ++
        " ORDER BY country, name ASC".toList) ∧
    parse_filter "city contains x".toList = .error "Unknown field: city" :=
  ⟨by decide, by decide, by decide, by decide⟩
